import Mathlib

/-!
# eth-kms: Ethereum-style signatures from a remote key-management capability

A shallow embedding of `ethkms.go` (package `ethkms`) and proofs about
`CreateKey`, `NewSignerFromID`, `Signer.PublicKey`, `Signer.fetchPublicKey`
and `Signer.Sign`.

Conventions of the embedding:

* a Go `[]byte` is a `List (Fin 256)`; a `*big.Int` is an `Int`;
* a Go `error` value is a `GoError`; `fmt.Errorf` and `errors.New` are the
  functions `Errorf_w`, `Errorf_v` and `GoError.new`, which keep both the
  rendered text and the wrapped cause (if any);
* the remote capability (`kmsiface.KMSAPI`) is an arbitrary state machine
  `KMSAPI σ`; every request made to it is appended to the `trace` of the
  `World`, and so is every call of `crypto.Ecrecover`;
* a method with a pointer receiver returns the `Signer` after the call next
  to its results;
* the functions of `encoding/asn1` and `crypto.Ecrecover`, which are not part
  of this repository, are fields of `Lib`; properties that depend on what they
  do carry the documented behaviour as an explicit hypothesis;
* a run-time panic (index out of range) is the `Result.panic` outcome.
-/

namespace EthKms

/-! ## Bytes and big integers -/

abbrev Byte := Fin 256

abbrev Bytes := List Byte

/-- Big-endian value of a byte string (`new(big.Int).SetBytes`). -/
def bytesToNat (bs : Bytes) : Nat :=
  bs.foldl (fun acc b => acc * 256 + b.val) 0

/-- Fixed-width big-endian encoding: the low `n` base-256 digits of `x`. -/
def toBE : Nat → Nat → Bytes
  | 0, _ => []
  | n + 1, x => toBE n (x / 256) ++ [⟨x % 256, Nat.mod_lt x (by decide)⟩]

/-- Counts the base-256 digits of `x`, at most `fuel` of them. -/
def byteLenAux : Nat → Nat → Nat
  | 0, _ => 0
  | fuel + 1, x => if x = 0 then 0 else byteLenAux fuel (x / 256) + 1

/-- Number of significant bytes of `x` (0 for 0). -/
def byteLen (x : Nat) : Nat :=
  byteLenAux x x

/-- Minimal big-endian encoding of a natural number, no leading zero byte. -/
def natBytes (x : Nat) : Bytes :=
  toBE (byteLen x) x

/-- Model of `(*big.Int).Bytes`: the absolute value of `x` as a big-endian
byte slice. -/
def bigBytes (x : Int) : Bytes :=
  natBytes x.natAbs

/-- A byte string zero-padded on the left to `n` bytes. -/
def leftPad (n : Nat) (bs : Bytes) : Bytes :=
  List.replicate (n - bs.length) (0 : Byte) ++ bs

/-! ## Go errors -/

/-- Go `error` values. `remote` is an error value produced outside this
package (by the capability or a library), `new` is `errors.New`, and
`wrapError` is the value `fmt.Errorf` builds for a `%w` verb: a message and
the wrapped error. -/
inductive GoError where
  | remote (msg : String)
  | new (text : String)
  | wrapError (msg : String) (err : GoError)
  deriving DecidableEq, Repr

namespace GoError

/-- The `Error()` method. -/
def Error : GoError → String
  | remote msg => msg
  | new text => text
  | wrapError msg _ => msg

/-- Model of `errors.Unwrap`. -/
def Unwrap : GoError → Option GoError
  | wrapError _ err => some err
  | _ => none

/-- The chain of an error: the error itself followed by what repeated
`Unwrap` reaches (what `errors.Is` walks). -/
def chain : GoError → List GoError
  | wrapError msg err => wrapError msg err :: chain err
  | e => [e]

end GoError

/-- Text of `%v` for an error argument that may be nil. -/
def verbV : Option GoError → String
  | some e => e.Error
  | none => "<nil>"

/-- Model of `fmt.Errorf(pfx + ": %w", err)`: wraps a non-nil `err`; a nil
argument is rendered as a bad verb and nothing is wrapped. -/
def Errorf_w (pfx : String) : Option GoError → GoError
  | some e => .wrapError (pfx ++ ": " ++ e.Error) e
  | none => .new (pfx ++ ": %!w(<nil>)")

/-- Model of `fmt.Errorf(pfx + ": %v", err)`: only the text of `err` is kept,
the result wraps nothing. -/
def Errorf_v (pfx : String) (err : Option GoError) : GoError :=
  .new (pfx ++ ": " ++ verbV err)

/-- Outcome of `Sign`: a value, an error, or a run-time panic. -/
inductive Result (α : Type) where
  | ok (v : α)
  | error (e : GoError)
  | panic (msg : String)
  deriving DecidableEq, Repr

/-! ## The secp256k1 public-key encoding (go-ethereum `crypto`) -/

/-- The field prime of secp256k1. -/
def secp256k1P : Nat :=
  0xFFFFFFFFFFFFFFFFFFFFFFFFFFFFFFFFFFFFFFFFFFFFFFFFFFFFFFFEFFFFFC2F

/-- The group order of secp256k1. -/
def secp256k1N : Nat :=
  0xFFFFFFFFFFFFFFFFFFFFFFFFFFFFFFFEBAAEDCE6AF48A03BBFD25E8CD0364141

/-- The type `ecdsa.PublicKey` on the curve `S256()`: the affine coordinates. -/
structure ECDSAPublicKey where
  X : Nat
  Y : Nat
  deriving DecidableEq, Repr

/-- The curve equation `y^2 = x^3 + 7` over the prime field. -/
def IsOnCurve (x y : Nat) : Bool :=
  (y * y) % secp256k1P == (x * x * x + 7) % secp256k1P

/-- Model of `crypto.UnmarshalPubkey` (`elliptic.Unmarshal` on `S256()`): the
input must be 65 bytes, start with 4 and hold two coordinates below the field
prime that satisfy the curve equation. -/
def UnmarshalPubkey (pub : Bytes) : Except GoError ECDSAPublicKey :=
  if pub.length ≠ 65 then .error (.new "invalid secp256k1 public key")
  else if pub.head? ≠ some 4 then .error (.new "invalid secp256k1 public key")
  else
    let x := bytesToNat ((pub.drop 1).take 32)
    let y := bytesToNat (pub.drop 33)
    if secp256k1P ≤ x ∨ secp256k1P ≤ y then .error (.new "invalid secp256k1 public key")
    else if !IsOnCurve x y then .error (.new "invalid secp256k1 public key")
    else .ok ⟨x, y⟩

/-- Model of `crypto.FromECDSAPub` (`elliptic.Marshal` on `S256()`): the byte 4
followed by both coordinates, each filled into 32 bytes. Coordinates of a key
built by `UnmarshalPubkey` are below the field prime, so they always fit. -/
def FromECDSAPub (pub : ECDSAPublicKey) : Bytes :=
  (4 : Byte) :: (leftPad 32 (natBytes pub.X) ++ leftPad 32 (natBytes pub.Y))

/-- A valid 65-byte uncompressed secp256k1 point: 65 bytes, the first being 4,
then the 32-byte big-endian coordinates X (`b[1:33]`) and Y (`b[33:65]`), both
below the field prime and satisfying the curve equation. -/
def IsUncompressedPoint (b : Bytes) : Prop :=
  b.length = 65 ∧ b.head? = some 4 ∧
    bytesToNat ((b.drop 1).take 32) < secp256k1P ∧ bytesToNat (b.drop 33) < secp256k1P ∧
    IsOnCurve (bytesToNat ((b.drop 1).take 32)) (bytesToNat (b.drop 33)) = true

instance (b : Bytes) : Decidable (IsUncompressedPoint b) := by
  unfold IsUncompressedPoint
  infer_instance

/-! ## Libraries outside the repository -/

/-- The type `asn1.BitString`. -/
structure BitString where
  Bytes : Bytes
  BitLength : Nat
  deriving DecidableEq, Repr

/-- The struct `subjectPublicKeyInfo` of `ethkms.go`. The algorithm identifier
(`pkix.AlgorithmIdentifier`) is kept as its DER contents: the package never
reads it. -/
structure subjectPublicKeyInfo where
  Algorithm : Bytes
  PublicKey : BitString
  deriving DecidableEq, Repr

/-- The library functions the package calls and this repository does not
define. `asn1UnmarshalInts` is `asn1.Unmarshal` into a `[]*big.Int`,
`asn1UnmarshalSPKI` is `asn1.Unmarshal` into a `subjectPublicKeyInfo`; both
return the decoded value and the rest of the input, or an error.
`Ecrecover hash sig` is `crypto.Ecrecover`. -/
structure Lib where
  asn1UnmarshalInts : Bytes → Except GoError (List Int × Bytes)
  asn1UnmarshalSPKI : Bytes → Except GoError (subjectPublicKeyInfo × Bytes)
  Ecrecover : Bytes → Bytes → Except GoError Bytes

/-- The documented behaviour of `crypto.Ecrecover` on the signature length: a
signature that is not 65 bytes long is rejected with an error. -/
def EcrecoverChecksLength (L : Lib) : Prop :=
  ∀ hash sig : Bytes, sig.length ≠ 65 → ∃ e, L.Ecrecover hash sig = .error e

/-! ## The remote capability and the world -/

/-- The fields of `kms.CreateKeyInput` that `CreateKey` sets. -/
structure CreateKeyInput where
  KeyUsage : String
  CustomerMasterKeySpec : String
  deriving DecidableEq, Repr

/-- The field of `kms.GetPublicKeyInput` that `fetchPublicKey` sets. -/
structure GetPublicKeyInput where
  KeyId : String
  deriving DecidableEq, Repr

/-- The fields of `kms.SignInput` that `Sign` sets. -/
structure SignInput where
  KeyId : String
  Message : Bytes
  MessageType : String
  SigningAlgorithm : String
  deriving DecidableEq, Repr

/-- The constant `kms.KeyUsageTypeSignVerify` of the AWS SDK. -/
def KeyUsageTypeSignVerify : String := "SIGN_VERIFY"

/-- The constant `kms.CustomerMasterKeySpecEccSecgP256k1` of the AWS SDK. -/
def CustomerMasterKeySpecEccSecgP256k1 : String := "ECC_SECG_P256K1"

/-- The constant `kms.MessageTypeDigest` of the AWS SDK. -/
def MessageTypeDigest : String := "DIGEST"

/-- The constant `kms.SigningAlgorithmSpecEcdsaSha256` of the AWS SDK. -/
def SigningAlgorithmSpecEcdsaSha256 : String := "ECDSA_SHA_256"

/-- The three operations of `kmsiface.KMSAPI` the package uses, as a state
machine over an arbitrary state `σ`: each takes the request and the
capability's state and returns a response or an error, and the next state. A
successful `CreateKeyWithContext` carries `KeyMetadata.KeyId`, a successful
`GetPublicKeyWithContext` the field `PublicKey`, a successful
`SignWithContext` the field `Signature`. -/
structure KMSAPI (σ : Type) where
  CreateKeyWithContext : CreateKeyInput → σ → Except GoError String × σ
  GetPublicKeyWithContext : GetPublicKeyInput → σ → Except GoError Bytes × σ
  SignWithContext : SignInput → σ → Except GoError Bytes × σ

/-- What the package does that is visible outside it: requests to the
capability, and calls of `crypto.Ecrecover` with the candidate signature. -/
inductive Event where
  | createKey (input : CreateKeyInput)
  | getPublicKey (input : GetPublicKeyInput)
  | sign (input : SignInput)
  | ecrecover (hash : Bytes) (sig : Bytes)
  deriving DecidableEq, Repr

/-- The state outside a `Signer`: the capability's state and the events so far. -/
structure World (σ : Type) where
  kms : σ
  trace : List Event

/-- Records an event and the capability's next state. -/
def World.step {σ : Type} (w : World σ) (k : σ) (ev : Event) : World σ :=
  ⟨k, w.trace ++ [ev]⟩

/-- Number of get-public-key requests in a trace. -/
def countGetPublicKey (tr : List Event) : Nat :=
  (tr.filter (fun ev => match ev with
    | .getPublicKey _ => true
    | _ => false)).length

/-! ## The package `ethkms` -/

/-- The struct `Signer`. -/
structure Signer (σ : Type) where
  kms : KMSAPI σ
  KeyID : String
  publicKey : Option ECDSAPublicKey

/-- The request `CreateKey` sends. -/
def createKeyInput : CreateKeyInput :=
  ⟨KeyUsageTypeSignVerify, CustomerMasterKeySpecEccSecgP256k1⟩

/-- The request `Sign` sends for a digest. -/
def signInput {σ : Type} (s : Signer σ) (digest : Bytes) : SignInput :=
  ⟨s.KeyID, digest, MessageTypeDigest, SigningAlgorithmSpecEcdsaSha256⟩

/-- The function `CreateKey`. -/
def CreateKey {σ : Type} (kmsCli : KMSAPI σ) (w : World σ) :
    Except GoError (Signer σ) × World σ :=
  match kmsCli.CreateKeyWithContext createKeyInput w.kms with
  | (.error err, k) =>
    (.error (Errorf_w "error creating key" (some err)), w.step k (.createKey createKeyInput))
  | (.ok keyId, k) => (.ok ⟨kmsCli, keyId, none⟩, w.step k (.createKey createKeyInput))

/-- The function `NewSignerFromID`. -/
def NewSignerFromID {σ : Type} (kmsCli : KMSAPI σ) (keyID : String) : Signer σ :=
  ⟨kmsCli, keyID, none⟩

/-- The method `(*Signer).fetchPublicKey`. -/
def fetchPublicKey {σ : Type} (L : Lib) (s : Signer σ) (w : World σ) :
    Except GoError ECDSAPublicKey × World σ :=
  if s.KeyID = "" then (.error (.new "unknown key"), w)
  else
    match s.kms.GetPublicKeyWithContext ⟨s.KeyID⟩ w.kms with
    | (.error err, k) =>
      (.error (Errorf_w "error getting public key" (some err)),
        w.step k (.getPublicKey ⟨s.KeyID⟩))
    | (.ok out, k) =>
      let w1 := w.step k (.getPublicKey ⟨s.KeyID⟩)
      match L.asn1UnmarshalSPKI out with
      | .error err => (.error (Errorf_w "error unmarshaling public key" (some err)), w1)
      | .ok (pub, restPub) =>
        if restPub.length > 0 then
          (.error (Errorf_w "error unmarshaling public key" none), w1)
        else (UnmarshalPubkey pub.PublicKey.Bytes, w1)

/-- The method `(*Signer).PublicKey`: returns the result, the signer after the
call and the world after the call. -/
def PublicKey {σ : Type} (L : Lib) (s : Signer σ) (w : World σ) :
    Except GoError ECDSAPublicKey × Signer σ × World σ :=
  match s.publicKey with
  | some key => (.ok key, s, w)
  | none =>
    match fetchPublicKey L s w with
    | (.error err, w1) => (.error (Errorf_w "error getting key" (some err)), s, w1)
    | (.ok k, w1) => (.ok k, ⟨s.kms, s.KeyID, some k⟩, w1)

/-- The candidate `append(sigWithoutRecover, byte(i))`. -/
def sigWithRecover (sigWithoutRecover : Bytes) (i : Byte) : Bytes :=
  sigWithoutRecover ++ [i]

/-- The loop `for i := 0; i <= 1; i++` of `Sign`, over the recovery ids still
to try, with the statement after the loop as the base case. The variable `err`
read by that statement is the one of the function scope, which is nil there:
the `err` of the loop body is a new variable of the inner scope. -/
def recoveryLoop (L : Lib) (digest pubKeyBytes sigWithoutRecover : Bytes) :
    List Byte → List Event → Result Bytes × List Event
  | [], tr => (.error (Errorf_v "could not find correct recovery sig" none), tr)
  | i :: is, tr =>
    let cand := sigWithRecover sigWithoutRecover i
    let tr1 := tr ++ [Event.ecrecover digest cand]
    match L.Ecrecover digest cand with
    | .error err => (.error (Errorf_w "error attempting recovery" (some err)), tr1)
    | .ok recovered =>
      if pubKeyBytes = recovered then (.ok cand, tr1)
      else recoveryLoop L digest pubKeyBytes sigWithoutRecover is tr1

/-- The method `(*Signer).Sign`: returns the result, the signer after the call
and the world after the call. Indexing `rAndS[0]` and `rAndS[1]` panics when
the decoded slice is too short. -/
def Sign {σ : Type} (L : Lib) (s : Signer σ) (digest : Bytes) (w : World σ) :
    Result Bytes × Signer σ × World σ :=
  match s.kms.SignWithContext (signInput s digest) w.kms with
  | (.error err, k) =>
    (.error (Errorf_v "error signing" (some err)), s, w.step k (.sign (signInput s digest)))
  | (.ok signature, k) =>
    let w1 := w.step k (.sign (signInput s digest))
    match L.asn1UnmarshalInts signature with
    | .error err => (.error (Errorf_w "error unmarshaling signature" (some err)), s, w1)
    | .ok (rAndS, rest) =>
      if rest.length > 0 then
        (.error (Errorf_w "error unmarshaling signature" none), s, w1)
      else
        match PublicKey L s w1 with
        | (.error err, s2, w2) =>
          (.error (Errorf_w "error fetching public key" (some err)), s2, w2)
        | (.ok pubKey, s2, w2) =>
          let pubKeyBytes := FromECDSAPub pubKey
          match rAndS with
          | [] => (.panic "runtime error: index out of range [0] with length 0", s2, w2)
          | [_] => (.panic "runtime error: index out of range [1] with length 1", s2, w2)
          | r :: sv :: _ =>
            let sigWithoutRecover := bigBytes r ++ bigBytes sv
            match recoveryLoop L digest pubKeyBytes sigWithoutRecover [0, 1] w2.trace with
            | (res, tr) => (res, s2, ⟨w2.kms, tr⟩)

/-! ## Stand-ins for the libraries and the capability

Executable stand-ins used to run the package on concrete responses: a decoder
for the DER encodings involved, an `Ecrecover` given by a finite table of
recoveries behind the documented argument checks, and a capability that
answers every request with a fixed response. -/

/-- The value of the last byte of a byte string (0 when it is empty). -/
def lastByte (bs : Bytes) : Nat :=
  match bs.getLast? with
  | some b => b.val
  | none => 0

/-- Header of a DER element: the identifier byte, the length, and the bytes
after the header. Lengths are in short form or in minimal long form. -/
def derHeader : Bytes → Except GoError (Byte × Nat × Bytes)
  | [] => .error (.new "asn1: syntax error: truncated tag or length")
  | [_] => .error (.new "asn1: syntax error: truncated tag or length")
  | t :: l :: rest =>
    if l.val < 0x80 then .ok (t, l.val, rest)
    else if l.val = 0x80 then
      .error (.new "asn1: syntax error: indefinite length found (not DER)")
    else if rest.length < l.val - 0x80 then
      .error (.new "asn1: syntax error: truncated tag or length")
    else if (rest.take (l.val - 0x80)).head? = some 0 then
      .error (.new "asn1: syntax error: superfluous leading zeros in length")
    else if bytesToNat (rest.take (l.val - 0x80)) < 0x80 then
      .error (.new "asn1: syntax error: non-minimal length")
    else .ok (t, bytesToNat (rest.take (l.val - 0x80)), rest.drop (l.val - 0x80))

/-- One DER element: the identifier byte, the contents, and the rest. -/
def derElement (bs : Bytes) : Except GoError (Byte × Bytes × Bytes) :=
  match derHeader bs with
  | .error e => .error e
  | .ok (t, len, rest) =>
    if rest.length < len then .error (.new "asn1: syntax error: data truncated")
    else .ok (t, rest.take len, rest.drop len)

/-- The value of the contents of a DER INTEGER (two's complement, minimal). -/
def derInteger : Bytes → Except GoError Int
  | [] => .error (.new "asn1: structure error: empty integer")
  | [b] => .ok (if b.val < 0x80 then (b.val : Int) else (b.val : Int) - 256)
  | b0 :: b1 :: bs =>
    if (b0.val = 0 ∧ b1.val < 0x80) ∨ (b0.val = 0xff ∧ 0x80 ≤ b1.val) then
      .error (.new "asn1: structure error: integer not minimally-encoded")
    else if b0.val < 0x80 then .ok (bytesToNat (b0 :: b1 :: bs) : Int)
    else .ok ((bytesToNat (b0 :: b1 :: bs) : Int) - (256 : Int) ^ (bs.length + 2))

/-- The INTEGER elements filling the contents of a SEQUENCE. -/
def derInts : Nat → Bytes → Except GoError (List Int)
  | _, [] => .ok []
  | 0, _ :: _ => .error (.new "asn1: syntax error: data truncated")
  | fuel + 1, b :: bs =>
    match derElement (b :: bs) with
    | .error e => .error e
    | .ok (t, c, rest) =>
      if t ≠ 0x02 then .error (.new "asn1: structure error: tags don't match")
      else
        match derInteger c with
        | .error e => .error e
        | .ok v =>
          match derInts fuel rest with
          | .error e => .error e
          | .ok vs => .ok (v :: vs)

/-- Stand-in for `asn1.Unmarshal` into a `[]*big.Int`: a SEQUENCE of any
number of INTEGER elements, and the bytes after it. -/
def derUnmarshalInts (bs : Bytes) : Except GoError (List Int × Bytes) :=
  match derElement bs with
  | .error e => .error e
  | .ok (t, c, rest) =>
    if t ≠ 0x30 then .error (.new "asn1: structure error: tags don't match")
    else
      match derInts c.length c with
      | .error e => .error e
      | .ok vs => .ok (vs, rest)

/-- The contents of a DER BIT STRING: the count of unused bits, then the bytes. -/
def derBitString : Bytes → Except GoError BitString
  | [] => .error (.new "asn1: syntax error: zero length BIT STRING")
  | pad :: body =>
    if 7 < pad.val ∨ (body = [] ∧ pad.val ≠ 0) then
      .error (.new "asn1: syntax error: invalid padding bits in BIT STRING")
    else if lastByte body % 2 ^ pad.val ≠ 0 then
      .error (.new "asn1: syntax error: invalid padding bits in BIT STRING")
    else .ok ⟨body, body.length * 8 - pad.val⟩

/-- Stand-in for `asn1.Unmarshal` into a `subjectPublicKeyInfo`: a SEQUENCE
whose first element is a SEQUENCE (the algorithm identifier, kept as its
contents) and whose second element is a BIT STRING; bytes after the second
element inside the SEQUENCE are allowed, the bytes after the SEQUENCE are
returned. -/
def derUnmarshalSPKI (bs : Bytes) : Except GoError (subjectPublicKeyInfo × Bytes) :=
  match derElement bs with
  | .error e => .error e
  | .ok (t, c, rest) =>
    if t ≠ 0x30 then .error (.new "asn1: structure error: tags don't match")
    else
      match derElement c with
      | .error e => .error e
      | .ok (ta, alg, c2) =>
        if ta ≠ 0x30 then .error (.new "asn1: structure error: tags don't match")
        else
          match derElement c2 with
          | .error e => .error e
          | .ok (tb, bits, _) =>
            if tb ≠ 0x03 then .error (.new "asn1: structure error: tags don't match")
            else
              match derBitString bits with
              | .error e => .error e
              | .ok b => .ok (⟨alg, b⟩, rest)

/-- Stand-in for `crypto.Ecrecover`: the documented argument checks (a 32-byte
hash, a 65-byte signature, a recovery id below 4), then the recovered key read
from a table of known recoveries; outside the table recovery fails. -/
def tableEcrecover (table : List ((Bytes × Bytes) × Bytes)) (hash sig : Bytes) :
    Except GoError Bytes :=
  if hash.length ≠ 32 then .error (.new "invalid message length, need 32 bytes")
  else if sig.length ≠ 65 then .error (.new "invalid signature length")
  else if 4 ≤ lastByte sig then
    .error (.new "invalid signature recovery id")
  else
    match table.lookup (hash, sig) with
    | some key => .ok key
    | none => .error (.new "recovery failed")

/-- The libraries with the DER decoders and a table-driven `Ecrecover`. -/
def derLib (table : List ((Bytes × Bytes) × Bytes)) : Lib :=
  ⟨derUnmarshalInts, derUnmarshalSPKI, tableEcrecover table⟩

/-- A capability that answers every request of a kind with the same response. -/
def constKMS (create : Except GoError String) (pub sig : Except GoError Bytes) :
    KMSAPI Unit :=
  ⟨fun _ k => (create, k), fun _ k => (pub, k), fun _ k => (sig, k)⟩

/-- The value of a character of the standard base64 alphabet. -/
def base64Value (c : Char) : Option Nat :=
  if 65 ≤ c.toNat ∧ c.toNat ≤ 90 then some (c.toNat - 65)
  else if 97 ≤ c.toNat ∧ c.toNat ≤ 122 then some (c.toNat - 97 + 26)
  else if 48 ≤ c.toNat ∧ c.toNat ≤ 57 then some (c.toNat - 48 + 52)
  else if c.toNat = 43 then some 62
  else if c.toNat = 47 then some 63
  else none

/-- The values of the characters of a base64 text up to its padding. -/
def base64Values : List Char → Option (List Nat)
  | [] => some []
  | c :: cs =>
    if c = '=' then (if cs.all (fun d => d = '=') then some [] else none)
    else
      match base64Value c, base64Values cs with
      | some v, some vs => some (v :: vs)
      | _, _ => none

/-- Groups of four 6-bit values as three bytes each; a last group of three
values gives two bytes, of two values one byte. -/
def base64Bytes : List Nat → Option Bytes
  | [] => some []
  | [_] => none
  | [a, b] => some (toBE 1 ((a * 64 + b) / 16))
  | [a, b, c] => some (toBE 2 (((a * 64 + b) * 64 + c) / 4))
  | a :: b :: c :: d :: rest =>
    match base64Bytes rest with
    | some bs => some (toBE 3 (((a * 64 + b) * 64 + c) * 64 + d) ++ bs)
    | none => none

/-- Stand-in for `base64.StdEncoding.DecodeString` on padded text. -/
def base64Decode (text : String) : Option Bytes :=
  match base64Values text.data with
  | some vs => if text.length % 4 = 0 then base64Bytes vs else none
  | none => none

/-! ## Concrete data -/

/-- The constant `testKeyID` of `ethkms_test.go`. -/
def testKeyID : String := "88c8e79f-262f-4893-a02f-5ecfdbee65a3"

/-- The constant `testKeyPubBase64` of `ethkms_test.go`. -/
def testKeyPubBase64 : String :=
  "BD6zglZaze8Q61HsI8+QbxcRwTKmlfW3hSFvbCUJYg2tHShw3wxyLG4nVuVwDVX1ZN38C0lVI/vA/y0yS40ERds="

/-- The variable `testKeyPub` of `ethkms_test.go`, set by `init` to the
decoded `testKeyPubBase64`. -/
def testKeyPub : Bytes :=
  (base64Decode testKeyPubBase64).getD []

/-- The key of `ethkms_test.go` as a key value. -/
def testKey : ECDSAPublicKey :=
  ⟨0x3eb382565acdef10eb51ec23cf906f1711c132a695f5b785216f6c2509620dad,
   0x1d2870df0c722c6e2756e5700d55f564ddfc0b495523fbc0ff2d324b8d0445db⟩

/-- The DER header of a SubjectPublicKeyInfo for an uncompressed secp256k1
point: SEQUENCE (86 bytes), algorithm identifier (id-ecPublicKey, secp256k1),
BIT STRING (66 bytes, no unused bits). -/
def spkiHeader : Bytes :=
  [0x30, 0x56, 0x30, 0x10, 0x06, 0x07, 0x2a, 0x86, 0x48, 0xce, 0x3d, 0x02, 0x01,
   0x06, 0x05, 0x2b, 0x81, 0x04, 0x00, 0x0a, 0x03, 0x42, 0x00]

/-- The contents of the algorithm identifier in `spkiHeader`. -/
def spkiAlgorithm : Bytes :=
  [0x06, 0x07, 0x2a, 0x86, 0x48, 0xce, 0x3d, 0x02, 0x01, 0x06, 0x05, 0x2b, 0x81, 0x04,
   0x00, 0x0a]

/-- The digest of `TestSign`, the value of `crypto.Keccak256([]byte("test"))`. -/
def testDigest : Bytes :=
  toBE 32 0x9c22ff5f21f0b81b113e63f7db6da94fedef11b2119b4088b89664fb9a3cb658

/-- A second key on secp256k1, the public key of a known private key, used
where a signature has to be computed. -/
def demoKey : ECDSAPublicKey :=
  ⟨0x430439cae58c2175c2b62a7720ea11181ca2c869afaf8f3ed03db0ad81e27bc1,
   0xf213b92a5008bdb2108a6157e6f1c70607cada087828b3e3e485c26d32563b7e⟩

/-- The uncompressed encoding of `demoKey`. -/
def demoKeyPub : Bytes :=
  (4 : Byte) :: (toBE 32 demoKey.X ++ toBE 32 demoKey.Y)

/-- The component r of an ECDSA signature of `testDigest` by the demo key. -/
def demoR : Nat := 0x2d20e27338eb006035f047b9ef7270ccfeb5e1ed641ea5d4838ba43cb7268a6e

/-- The component s of an ECDSA signature of `testDigest` by the demo key. -/
def demoS : Nat := 0x4671b60d42e51edd0d90076028e5ee5940a0a7aa1d89ae349807e1c005ab6fda

/-- The DER encoding of the signature (`demoR`, `demoS`). -/
def demoSigDER : Bytes :=
  [0x30, 0x44, 0x02, 0x20] ++ toBE 32 demoR ++ [0x02, 0x20] ++ toBE 32 demoS

/-- The key secp256k1 recovers from (`demoR`, `demoS`) and `testDigest` with
recovery id 0; with recovery id 1 it recovers `demoKeyPub`. -/
def demoOtherPub : Bytes :=
  (4 : Byte) ::
    (toBE 32 0xeb141f10f54ed137de3b51c216c4f09725651ba5ba8293aaab5910a76e80668e ++
     toBE 32 0x082956a31392a0cdac7566734468f70bf65330d9b504c780987191de0c8277b7)

/-- The candidate for recovery id 0 of the demo signature. -/
def demoSig0 : Bytes :=
  toBE 32 demoR ++ toBE 32 demoS ++ [0]

/-- The recoverable signature of `testDigest` by the demo key: recovery id 1. -/
def demoSig : Bytes :=
  toBE 32 demoR ++ toBE 32 demoS ++ [1]

/-- The two recoveries of the demo signature, as a table for `tableEcrecover`. -/
def demoTable : List ((Bytes × Bytes) × Bytes) :=
  [((testDigest, demoSig0), demoOtherPub), ((testDigest, demoSig), demoKeyPub)]

/-- The component r of a second ECDSA signature of `testDigest` by the demo
key; this r has 31 significant bytes. -/
def shortR : Nat := 0x32b5d9aa6a483b6ce09e4c1c0d74f1faa2c277879c79e8b4aae889b31a04c4

/-- The component s of that second signature (32 significant bytes). -/
def shortS : Nat := 0x0754e2f03c52274df5803f7e354e520bff49681cb98c0677e23d16e3574af6c3

/-- The DER encoding of the signature (`shortR`, `shortS`): a 31-byte and a
32-byte INTEGER. -/
def shortSigDER : Bytes :=
  [0x30, 0x43, 0x02, 0x1f] ++ toBE 31 shortR ++ [0x02, 0x20] ++ toBE 32 shortS

/-- The DER encoding of a SEQUENCE of three INTEGERs: `demoR`, `demoS` and 7. -/
def threeIntsDER : Bytes :=
  [0x30, 0x47, 0x02, 0x20] ++ toBE 32 demoR ++ [0x02, 0x20] ++ toBE 32 demoS ++
    [0x02, 0x01, 0x07]

/-- The DER encoding of a SEQUENCE of the two INTEGERs 1 and 1. -/
def onesDER : Bytes :=
  [0x30, 0x06, 0x02, 0x01, 0x01, 0x02, 0x01, 0x01]

/-- A capability holding the demo key that answers sign requests with `resp`. -/
def respKMS (resp : Bytes) : KMSAPI Unit :=
  constKMS (.ok testKeyID) (.ok (spkiHeader ++ demoKeyPub)) (.ok resp)

/-- A capability holding the demo key: it returns the key's
SubjectPublicKeyInfo and signs with the key. -/
def demoKMS : KMSAPI Unit :=
  respKMS demoSigDER

/-- A capability whose public-key response is `blob` and whose signatures are
made by the demo key. -/
def pubKMS (blob : Bytes) : KMSAPI Unit :=
  constKMS (.ok testKeyID) (.ok blob) (.ok demoSigDER)

/-- A capability that holds the key of `ethkms_test.go` as its public key but
answers sign requests with a signature made by the demo key. -/
def wrongKeyKMS : KMSAPI Unit :=
  pubKMS (spkiHeader ++ testKeyPub)

/-- A capability holding the demo key whose sign requests fail with `err`. -/
def failingSignKMS (err : GoError) : KMSAPI Unit :=
  constKMS (.ok testKeyID) (.ok (spkiHeader ++ demoKeyPub)) (.error err)

/-- The world before any request. -/
def world0 : World Unit :=
  ⟨(), []⟩

/-- The sign request for `testDigest` under `testKeyID`. -/
def testSignInput : SignInput :=
  ⟨testKeyID, testDigest, MessageTypeDigest, SigningAlgorithmSpecEcdsaSha256⟩

/-- The world after a sign request and a get-public-key request. -/
def worldSignGet : World Unit :=
  ⟨(), [Event.sign testSignInput, Event.getPublicKey ⟨testKeyID⟩]⟩

/-- The world after a first `Sign` of `testDigest` that tried both candidates
of the demo signature. -/
def demoWorld : World Unit :=
  ⟨(), [Event.sign testSignInput, Event.getPublicKey ⟨testKeyID⟩,
    Event.ecrecover testDigest demoSig0, Event.ecrecover testDigest demoSig]⟩

/-! ## Facts about the byte encodings -/

theorem toBE_length (n x : Nat) : (toBE n x).length = n := by
  induction n generalizing x with
  | zero => rfl
  | succ n ih => simp [toBE, ih]

theorem natBytes_length (x : Nat) : (natBytes x).length = byteLen x := by
  simp [natBytes, toBE_length]

theorem byteLenAux_le_iff (fuel x k : Nat) (hf : x ≤ fuel) :
    byteLenAux fuel x ≤ k ↔ x < 256 ^ k := by
  induction fuel generalizing x k with
  | zero =>
    have hx : x = 0 := by omega
    subst hx
    simp [byteLenAux]
  | succ fuel ih =>
    unfold byteLenAux
    by_cases hx : x = 0
    · simp [hx]
    · rw [if_neg hx]
      cases k with
      | zero => simp; omega
      | succ k =>
        have hdiv : x / 256 ≤ fuel := by omega
        rw [Nat.succ_le_succ_iff, ih (x / 256) k hdiv, pow_succ,
          Nat.div_lt_iff_lt_mul (by decide)]

theorem byteLen_le_iff (x k : Nat) : byteLen x ≤ k ↔ x < 256 ^ k :=
  byteLenAux_le_iff x x k (Nat.le_refl x)

theorem bytesToNat_append_singleton (bs : Bytes) (b : Byte) :
    bytesToNat (bs ++ [b]) = bytesToNat bs * 256 + b.val := by
  simp [bytesToNat, List.foldl_append]

theorem bytesToNat_lt (bs : Bytes) : bytesToNat bs < 256 ^ bs.length := by
  induction bs using List.reverseRecOn with
  | nil => simp [bytesToNat]
  | append_singleton l a ih =>
    rw [bytesToNat_append_singleton, List.length_append, List.length_singleton, pow_succ]
    have := a.isLt
    omega

theorem toBE_bytesToNat (bs : Bytes) : toBE bs.length (bytesToNat bs) = bs := by
  induction bs using List.reverseRecOn with
  | nil => rfl
  | append_singleton l a ih =>
    rw [bytesToNat_append_singleton, List.length_append, List.length_singleton, toBE]
    have ha := a.isLt
    have h1 : (bytesToNat l * 256 + a.val) / 256 = bytesToNat l := by omega
    have h2 : (bytesToNat l * 256 + a.val) % 256 = a.val := by omega
    simp only [h1, h2, ih]

theorem toBE_zero_value (n : Nat) : toBE n 0 = List.replicate n (0 : Byte) := by
  induction n with
  | zero => rfl
  | succ n ih =>
    rw [toBE, Nat.zero_div, ih, List.replicate_succ']
    rfl

theorem toBE_add (k m x : Nat) (hx : x < 256 ^ m) :
    toBE (k + m) x = List.replicate k (0 : Byte) ++ toBE m x := by
  induction m generalizing x with
  | zero =>
    have : x = 0 := by simpa using hx
    subst this
    simp [toBE_zero_value, toBE]
  | succ m ih =>
    have hdiv : x / 256 < 256 ^ m := by
      rw [Nat.div_lt_iff_lt_mul (by decide)]
      rwa [pow_succ] at hx
    rw [← Nat.add_assoc, toBE, ih _ hdiv, toBE, List.append_assoc]

theorem leftPad_natBytes (n x : Nat) (hx : x < 256 ^ n) :
    leftPad n (natBytes x) = toBE n x := by
  have hlen : byteLen x ≤ n := (byteLen_le_iff x n).mpr hx
  have hfit : x < 256 ^ byteLen x := (byteLen_le_iff x (byteLen x)).mp (Nat.le_refl _)
  unfold leftPad
  rw [natBytes_length, natBytes, ← toBE_add _ _ _ hfit, Nat.sub_add_cancel hlen]

theorem leftPad_of_length (n : Nat) (bs : Bytes) (h : bs.length = n) : leftPad n bs = bs := by
  simp [leftPad, h]

/-- Filling the value of an `n`-byte string into `n` bytes gives the string back. -/
theorem leftPad_natBytes_bytesToNat (bs : Bytes) :
    leftPad bs.length (natBytes (bytesToNat bs)) = bs := by
  rw [leftPad_natBytes _ _ (bytesToNat_lt bs), toBE_bytesToNat]

theorem bytesToNat_toBE (n x : Nat) : bytesToNat (toBE n x) = x % 256 ^ n := by
  induction n generalizing x with
  | zero => simp [toBE, bytesToNat, Nat.mod_one]
  | succ n ih =>
    rw [toBE, bytesToNat_append_singleton, ih, pow_succ', Nat.mod_mul]
    simp only
    omega

/-- The model of `Bytes()` decodes back to the number. -/
theorem bytesToNat_natBytes (x : Nat) : bytesToNat (natBytes x) = x := by
  rw [natBytes, bytesToNat_toBE]
  exact Nat.mod_eq_of_lt ((byteLen_le_iff x (byteLen x)).mp (Nat.le_refl _))

theorem toBE_head (m x : Nat) :
    ((toBE (m + 1) x).head?).map Fin.val = some (x / 256 ^ m % 256) := by
  induction m generalizing x with
  | zero => simp [toBE]
  | succ m ih =>
    have hne : toBE (m + 1) (x / 256) ≠ [] := by
      intro h
      have := congrArg List.length h
      simp [toBE_length] at this
    rw [toBE, List.head?_append_of_ne_nil _ hne, ih, Nat.div_div_eq_div_mul, pow_succ,
      Nat.mul_comm]

/-- The model of `Bytes()` has no leading zero byte: it is the minimal
big-endian encoding. -/
theorem natBytes_head_ne_zero (x : Nat) : (natBytes x).head? ≠ some 0 := by
  intro h
  unfold natBytes at h
  cases hk : byteLen x with
  | zero => simp [hk, toBE] at h
  | succ m =>
    rw [hk] at h
    have h1 := toBE_head m x
    rw [h] at h1
    simp only [Option.map_some', Fin.val_zero, Option.some.injEq] at h1
    have hlt : x < 256 ^ (m + 1) := by
      rw [← byteLen_le_iff, hk]
    have hge : ¬ x < 256 ^ m := by
      rw [← byteLen_le_iff, hk]
      omega
    have hpos : 0 < 256 ^ m := Nat.pow_pos (by decide)
    have hdiv : x / 256 ^ m < 256 := by
      rw [Nat.div_lt_iff_lt_mul hpos, Nat.mul_comm, ← pow_succ]
      exact hlt
    have hdiv1 : 0 < x / 256 ^ m := Nat.div_pos (Nat.le_of_not_lt hge) hpos
    omega

/-! ## Facts about the public-key encoding -/

theorem UnmarshalPubkey_of_point (b : Bytes) (h : IsUncompressedPoint b) :
    UnmarshalPubkey b =
      .ok ⟨bytesToNat ((b.drop 1).take 32), bytesToNat (b.drop 33)⟩ := by
  obtain ⟨hlen, hhead, hx, hy, hc⟩ := h
  unfold UnmarshalPubkey
  rw [if_neg (by simp [hlen]), if_neg (by simp [hhead])]
  simp only [hc, Bool.not_true, Bool.false_eq_true, if_false]
  rw [if_neg (by omega)]

theorem FromECDSAPub_of_point (b : Bytes) (hlen : b.length = 65) (hhead : b.head? = some 4) :
    FromECDSAPub ⟨bytesToNat ((b.drop 1).take 32), bytesToNat (b.drop 33)⟩ = b := by
  cases b with
  | nil => simp at hlen
  | cons c t =>
    simp only [List.head?_cons, Option.some.injEq] at hhead
    subst hhead
    have ht : t.length = 64 := by simpa using hlen
    have h1 : (t.take 32).length = 32 := by simp [ht]
    have h2 : (t.drop 32).length = 32 := by simp [ht]
    have e1 := leftPad_natBytes_bytesToNat (t.take 32)
    have e2 := leftPad_natBytes_bytesToNat (t.drop 32)
    rw [h1] at e1
    rw [h2] at e2
    simp only [FromECDSAPub, List.drop_succ_cons, List.drop_zero, e1, e2, List.take_append_drop]

/-! ## Facts about the error values -/

theorem Errorf_v_signing_ne (err : Option GoError) :
    Errorf_v "error signing" err ≠ GoError.new "could not find correct recovery sig: <nil>" := by
  intro h
  simp only [Errorf_v, GoError.new.injEq] at h
  have h2 := congrArg (fun t : String => t.data.head?) h
  simp [String.data_append] at h2

/-! ## Facts about the stand-ins -/

theorem derLib_checks_length (table : List ((Bytes × Bytes) × Bytes)) :
    EcrecoverChecksLength (derLib table) := by
  intro hash sig hlen
  simp only [derLib, tableEcrecover]
  by_cases h32 : hash.length ≠ 32
  · exact ⟨_, if_pos h32⟩
  · rw [if_neg h32, if_pos hlen]
    exact ⟨_, rfl⟩

/-! ## Facts about `fetchPublicKey` and `PublicKey` -/

theorem PublicKey_cached {σ : Type} (L : Lib) (s : Signer σ) (w : World σ)
    (P : ECDSAPublicKey) (h : s.publicKey = some P) :
    PublicKey L s w = (.ok P, s, w) := by
  simp [PublicKey, h]

theorem PublicKey_uncached {σ : Type} (L : Lib) (s : Signer σ) (w : World σ)
    (h : s.publicKey = none) :
    PublicKey L s w =
      match fetchPublicKey L s w with
      | (.error err, w1) => (.error (Errorf_w "error getting key" (some err)), s, w1)
      | (.ok k, w1) => (.ok k, ⟨s.kms, s.KeyID, some k⟩, w1) := by
  simp [PublicKey, h]

/-- After a successful `PublicKey` the signer holds the returned key; its
capability handle and KeyID are unchanged. -/
theorem PublicKey_ok_signer {σ : Type} (L : Lib) (s s1 : Signer σ)
    (w w1 : World σ) (P : ECDSAPublicKey)
    (h : PublicKey L s w = (.ok P, s1, w1)) :
    s1 = ⟨s.kms, s.KeyID, some P⟩ := by
  unfold PublicKey at h
  split at h
  · next key hk =>
    simp only [Prod.mk.injEq, Except.ok.injEq] at h
    obtain ⟨h1, h2, _⟩ := h
    subst h1 h2
    cases s
    simp only at hk
    rw [hk]
  · split at h
    · simp at h
    · simp only [Prod.mk.injEq, Except.ok.injEq] at h
      obtain ⟨h1, h2, _⟩ := h
      subst h1 h2
      rfl

/-- A successful `fetchPublicKey` made exactly one get-public-key request. -/
theorem fetchPublicKey_ok_trace {σ : Type} (L : Lib) (s : Signer σ)
    (w w1 : World σ) (key : ECDSAPublicKey)
    (h : fetchPublicKey L s w = (.ok key, w1)) :
    w1.trace = w.trace ++ [Event.getPublicKey ⟨s.KeyID⟩] := by
  unfold fetchPublicKey at h
  split at h
  · simp at h
  · split at h
    · simp at h
    · simp only at h
      split at h
      · simp at h
      · split at h
        · simp at h
        · simp only [Prod.mk.injEq] at h
          rw [← h.2]
          rfl

theorem fetchPublicKey_of_point {σ : Type} (L : Lib) (s : Signer σ)
    (w : World σ) (out : Bytes) (k : σ) (pub : subjectPublicKeyInfo)
    (hid : s.KeyID ≠ "")
    (hget : s.kms.GetPublicKeyWithContext ⟨s.KeyID⟩ w.kms = (.ok out, k))
    (hdec : L.asn1UnmarshalSPKI out = .ok (pub, []))
    (hpoint : IsUncompressedPoint pub.PublicKey.Bytes) :
    fetchPublicKey L s w =
      (.ok ⟨bytesToNat ((pub.PublicKey.Bytes.drop 1).take 32),
          bytesToNat (pub.PublicKey.Bytes.drop 33)⟩,
        w.step k (.getPublicKey ⟨s.KeyID⟩)) := by
  unfold fetchPublicKey
  simp only [if_neg hid, hget, hdec, List.length_nil, gt_iff_lt, Nat.lt_irrefl, if_false,
    UnmarshalPubkey_of_point _ hpoint]

/-! ## Facts about the recovery loop and `Sign` -/

theorem recoveryLoop_ok (L : Lib) (digest pk swr : Bytes) (ids : List Byte)
    (tr tr1 : List Event) (sig : Bytes)
    (h : recoveryLoop L digest pk swr ids tr = (.ok sig, tr1)) :
    ∃ i, i ∈ ids ∧ sig = sigWithRecover swr i ∧ L.Ecrecover digest sig = .ok pk := by
  induction ids generalizing tr with
  | nil => simp [recoveryLoop] at h
  | cons i is ih =>
    unfold recoveryLoop at h
    simp only at h
    split at h
    · simp at h
    · next recovered hrec =>
      split at h
      · next heq =>
        simp only [Prod.mk.injEq, Result.ok.injEq] at h
        obtain ⟨h1, _⟩ := h
        subst h1
        exact ⟨i, List.mem_cons_self _ _, rfl, by rw [hrec, heq]⟩
      · obtain ⟨j, hj, hs, he⟩ := ih _ h
        exact ⟨j, List.mem_cons_of_mem _ hj, hs, he⟩

/-- When the loop ends with the error of the statement after it, every
recovery id was tried in order: each candidate was passed to `Ecrecover`,
which recovered a key different from the public key. -/
theorem recoveryLoop_exhausted (L : Lib) (digest pk swr : Bytes) (ids : List Byte)
    (tr tr1 : List Event)
    (h : recoveryLoop L digest pk swr ids tr =
      (.error (.new "could not find correct recovery sig: <nil>"), tr1)) :
    tr1 = tr ++ ids.map (fun i => Event.ecrecover digest (swr ++ [i])) ∧
    ∀ i, i ∈ ids → ∃ recovered, L.Ecrecover digest (swr ++ [i]) = .ok recovered ∧
      recovered ≠ pk := by
  induction ids generalizing tr with
  | nil =>
    simp only [recoveryLoop, Prod.mk.injEq] at h
    simp [h.2]
  | cons i is ih =>
    unfold recoveryLoop at h
    simp only at h
    split at h
    · simp [Errorf_w] at h
    · next recovered hrec =>
      split at h
      · simp at h
      · next hne =>
        obtain ⟨h1, h2⟩ := ih _ h
        refine ⟨?_, ?_⟩
        · simp [h1, sigWithRecover]
        · intro j hj
          rcases List.mem_cons.mp hj with hj | hj
          · subst hj
            exact ⟨recovered, hrec, fun heq => hne heq.symm⟩
          · exact h2 j hj

theorem recoveryLoop_both_mismatch (L : Lib) (digest pk swr : Bytes) (tr : List Event)
    (rec0 rec1 : Bytes)
    (h0 : L.Ecrecover digest (swr ++ [0]) = .ok rec0) (hne0 : rec0 ≠ pk)
    (h1 : L.Ecrecover digest (swr ++ [1]) = .ok rec1) (hne1 : rec1 ≠ pk) :
    recoveryLoop L digest pk swr [0, 1] tr =
      (.error (.new "could not find correct recovery sig: <nil>"),
        tr ++ [Event.ecrecover digest (swr ++ [0]), Event.ecrecover digest (swr ++ [1])]) := by
  simp only [recoveryLoop, sigWithRecover, h0, h1, if_neg (Ne.symm hne0), if_neg (Ne.symm hne1)]
  simp
  rfl

/-- Inversion of a successful `Sign`: the request was answered, the answer
decoded to at least two integers with nothing left over, the public key was
available, and the result is the candidate for recovery id 0 or 1 from which
`Ecrecover` recovers the bytes of that public key. -/
theorem Sign_ok_inv {σ : Type} (L : Lib) (s s1 : Signer σ) (digest : Bytes)
    (w w1 : World σ) (sig : Bytes)
    (h : Sign L s digest w = (.ok sig, s1, w1)) :
    ∃ (resp : Bytes) (k : σ) (r sv : Int) (tl : List Int) (P : ECDSAPublicKey) (w2 : World σ)
      (v : Byte),
      s.kms.SignWithContext (signInput s digest) w.kms = (.ok resp, k) ∧
      L.asn1UnmarshalInts resp = .ok (r :: sv :: tl, []) ∧
      PublicKey L s (w.step k (.sign (signInput s digest))) = (.ok P, s1, w2) ∧
      (v = 0 ∨ v = 1) ∧
      sig = bigBytes r ++ bigBytes sv ++ [v] ∧
      L.Ecrecover digest sig = .ok (FromECDSAPub P) := by
  unfold Sign at h
  split at h
  · simp at h
  · next signature k hsign =>
    simp only at h
    split at h
    · simp at h
    · next rAndS rest hdec =>
      split at h
      · simp at h
      · next hrest =>
        have hrest0 : rest = [] := by
          cases rest with
          | nil => rfl
          | cons a t => simp at hrest
        subst hrest0
        split at h
        · simp at h
        · next pubKey s2 w2 hpub =>
          split at h
          · simp at h
          · simp at h
          · next r sv tl =>
            simp only [Prod.mk.injEq] at h
            obtain ⟨h1, h2, _⟩ := h
            subst h2
            have hloop : recoveryLoop L digest (FromECDSAPub pubKey) (bigBytes r ++ bigBytes sv)
                [0, 1] w2.trace = (.ok sig, (recoveryLoop L digest (FromECDSAPub pubKey)
                  (bigBytes r ++ bigBytes sv) [0, 1] w2.trace).2) := by
              rw [← h1]
            obtain ⟨i, hi, hs, he⟩ := recoveryLoop_ok L digest _ _ _ _ _ _ hloop
            refine ⟨signature, k, r, sv, tl, pubKey, w2, i, hsign, hdec, hpub, ?_, ?_, he⟩
            · simpa using hi
            · simpa [sigWithRecover] using hs

/-- A signature returned by `Sign` passed `Ecrecover`, so it has the length
`Ecrecover` insists on. -/
theorem Sign_ok_length {σ : Type} (L : Lib) (hL : EcrecoverChecksLength L)
    (s s1 : Signer σ) (digest : Bytes) (w w1 : World σ) (sig : Bytes)
    (h : Sign L s digest w = (.ok sig, s1, w1)) :
    sig.length = 65 := by
  obtain ⟨resp, k, r, sv, tl, P, w2, v, _, _, _, _, _, hrec⟩ :=
    Sign_ok_inv L s s1 digest w w1 sig h
  by_contra hlen
  obtain ⟨e, he⟩ := hL digest sig hlen
  rw [he] at hrec
  cases hrec

/-- Every call of `Sign` leaves a cached public key in place. -/
theorem Sign_keeps_cached {σ : Type} (L : Lib) (s s1 : Signer σ)
    (digest : Bytes) (w w1 : World σ) (res : Result Bytes) (P : ECDSAPublicKey)
    (hP : s.publicKey = some P) (h : Sign L s digest w = (res, s1, w1)) :
    s1 = s := by
  unfold Sign at h
  split at h
  · simp only [Prod.mk.injEq] at h
    exact h.2.1.symm
  · simp only at h
    split at h
    · simp only [Prod.mk.injEq] at h
      exact h.2.1.symm
    · split at h
      · simp only [Prod.mk.injEq] at h
        exact h.2.1.symm
      · rw [PublicKey_cached L s _ P hP] at h
        simp only at h
        split at h <;>
        · simp only [Prod.mk.injEq] at h
          exact h.2.1.symm

/-! ## Signing: round trip, layout, width -/

/-- Claim C1. Round trip of Sign and Ecrecover: whenever `Sign` succeeds with
result `sig`, the signer holds a public key `P` (the one it held before the
call, if it held one), `PublicKey` returns that `P` for the signer, and
`Ecrecover digest sig` succeeds with exactly the bytes `FromECDSAPub P`. This
holds for every signer, digest, capability and library behaviour. -/
theorem sign_ecrecover_round_trip {σ : Type} (L : Lib) (s s1 : Signer σ)
    (digest : Bytes) (w w1 : World σ) (sig : Bytes)
    (h : Sign L s digest w = (.ok sig, s1, w1)) :
    ∃ P : ECDSAPublicKey,
      s1 = ⟨s.kms, s.KeyID, some P⟩ ∧
      (∀ P0, s.publicKey = some P0 → P0 = P) ∧
      PublicKey L s1 w1 = (.ok P, s1, w1) ∧
      L.Ecrecover digest sig = .ok (FromECDSAPub P) := by
  obtain ⟨resp, k, r, sv, tl, P, w2, v, _, _, hpub, _, _, hrec⟩ :=
    Sign_ok_inv L s s1 digest w w1 sig h
  have hs1 := PublicKey_ok_signer L s s1 _ w2 P hpub
  refine ⟨P, hs1, ?_, PublicKey_cached L s1 w1 P (by rw [hs1]), hrec⟩
  intro P0 hP0
  rw [PublicKey_cached L s _ P0 hP0] at hpub
  simp only [Prod.mk.injEq, Except.ok.injEq] at hpub
  exact hpub.1

/-- Claim C3. Fixed-width output: with an `Ecrecover` that rejects every
signature whose length is not 65, a successful `Sign` returns exactly 65
bytes, for every signer, digest and capability response. -/
theorem sign_length_65 {σ : Type} (L : Lib) (hL : EcrecoverChecksLength L)
    (s s1 : Signer σ) (digest : Bytes) (w w1 : World σ) (sig : Bytes)
    (h : Sign L s digest w = (.ok sig, s1, w1)) :
    sig.length = 65 :=
  Sign_ok_length L hL s s1 digest w w1 sig h

/-- Claim C2. Byte-exact layout: when the capability's response decodes to
(r, s) with both in [1, curve order - 1] and `Sign` succeeds with `sig` (with
an `Ecrecover` that rejects signatures not 65 bytes long), then `sig[0:32]` is
r big-endian zero-padded to 32 bytes, `sig[32:64]` is s big-endian zero-padded
to 32 bytes, and `sig[64:]` is the single byte 0 or 1, the recovery id. -/
theorem sign_signature_layout {σ : Type} (L : Lib) (hL : EcrecoverChecksLength L)
    (s s1 : Signer σ) (digest : Bytes) (w w1 : World σ)
    (resp : Bytes) (k : σ) (r sv : Int) (tl : List Int) (rest : Bytes) (sig : Bytes)
    (hsign : s.kms.SignWithContext (signInput s digest) w.kms = (.ok resp, k))
    (hdec : L.asn1UnmarshalInts resp = .ok (r :: sv :: tl, rest))
    (hr : 1 ≤ r ∧ r ≤ (secp256k1N : Int) - 1) (hs : 1 ≤ sv ∧ sv ≤ (secp256k1N : Int) - 1)
    (h : Sign L s digest w = (.ok sig, s1, w1)) :
    sig.take 32 = leftPad 32 (bigBytes r) ∧
    (sig.drop 32).take 32 = leftPad 32 (bigBytes sv) ∧
    (sig.drop 64 = [0] ∨ sig.drop 64 = [1]) := by
  have hlen := Sign_ok_length L hL s s1 digest w w1 sig h
  obtain ⟨resp1, k1, r1, sv1, tl1, P, w2, v, hsign1, hdec1, _, hv, hsig, _⟩ :=
    Sign_ok_inv L s s1 digest w w1 sig h
  rw [hsign] at hsign1
  simp only [Prod.mk.injEq, Except.ok.injEq] at hsign1
  obtain ⟨hresp, _⟩ := hsign1
  subst hresp
  rw [hdec] at hdec1
  simp only [Except.ok.injEq, Prod.mk.injEq, List.cons.injEq] at hdec1
  obtain ⟨⟨hr1, hs1, _⟩, _⟩ := hdec1
  subst hr1 hs1
  have hN : secp256k1N < 256 ^ 32 := by decide
  have hrb : (bigBytes r).length ≤ 32 := by
    rw [bigBytes, natBytes_length, byteLen_le_iff]
    omega
  have hsb : (bigBytes sv).length ≤ 32 := by
    rw [bigBytes, natBytes_length, byteLen_le_iff]
    omega
  have htot : (bigBytes r).length + (bigBytes sv).length = 64 := by
    rw [hsig] at hlen
    simp only [List.length_append, List.length_singleton] at hlen
    omega
  have hr32 : (bigBytes r).length = 32 := by omega
  have hs32 : (bigBytes sv).length = 32 := by omega
  rw [leftPad_of_length 32 _ hr32, leftPad_of_length 32 _ hs32, hsig]
  refine ⟨?_, ?_, ?_⟩
  · rw [List.append_assoc, List.take_left' hr32]
  · rw [List.append_assoc, List.drop_left' hr32, List.take_left' hs32]
  · have h64 : (bigBytes r ++ bigBytes sv).length = 64 := by
      rw [List.length_append, htot]
    rw [List.drop_left' h64]
    rcases hv with hv | hv <;> simp [hv]

/-! ## Recovery exhaustion -/

/-- Claim C4, as amended. Recovery exhaustion. First part: when the
capability's response decodes to (r, s), the signer's public key is `P`, and
for both recovery ids 0 and 1 `Ecrecover` succeeds on the candidate built from
(r, s, v) and the digest and the key it recovers differs from the bytes of
`P`, then `Sign` returns no signature but the error "could not find correct
recovery sig", after passing first the candidate for v=0 and then the one for
v=1 to `Ecrecover`. Second part: whenever `Sign` returns that error, both
candidates v=0 and v=1 have been tried (they are the last two events) and
both recovered a key different from the signer's. Where `Ecrecover` itself
fails on a candidate nothing is stated here. -/
theorem sign_recovery_exhaustion {σ : Type} (L : Lib) (s : Signer σ)
    (digest : Bytes) (w : World σ) :
    (∀ (resp : Bytes) (k : σ) (r sv : Int) (tl : List Int) (P : ECDSAPublicKey)
        (s2 : Signer σ) (w2 : World σ) (rec0 rec1 : Bytes),
      s.kms.SignWithContext (signInput s digest) w.kms = (.ok resp, k) →
      L.asn1UnmarshalInts resp = .ok (r :: sv :: tl, []) →
      PublicKey L s (w.step k (.sign (signInput s digest))) = (.ok P, s2, w2) →
      L.Ecrecover digest (bigBytes r ++ bigBytes sv ++ [0]) = .ok rec0 →
      rec0 ≠ FromECDSAPub P →
      L.Ecrecover digest (bigBytes r ++ bigBytes sv ++ [1]) = .ok rec1 →
      rec1 ≠ FromECDSAPub P →
      Sign L s digest w =
        (.error (.new "could not find correct recovery sig: <nil>"), s2,
          ⟨w2.kms, w2.trace ++ [Event.ecrecover digest (bigBytes r ++ bigBytes sv ++ [0]),
            Event.ecrecover digest (bigBytes r ++ bigBytes sv ++ [1])]⟩)) ∧
    (∀ (s1 : Signer σ) (w1 : World σ),
      Sign L s digest w =
        (.error (.new "could not find correct recovery sig: <nil>"), s1, w1) →
      ∃ (r sv : Int) (P : ECDSAPublicKey) (rec0 rec1 : Bytes) (tr : List Event),
        s1.publicKey = some P ∧
        w1.trace = tr ++ [Event.ecrecover digest (bigBytes r ++ bigBytes sv ++ [0]),
          Event.ecrecover digest (bigBytes r ++ bigBytes sv ++ [1])] ∧
        L.Ecrecover digest (bigBytes r ++ bigBytes sv ++ [0]) = .ok rec0 ∧
        rec0 ≠ FromECDSAPub P ∧
        L.Ecrecover digest (bigBytes r ++ bigBytes sv ++ [1]) = .ok rec1 ∧
        rec1 ≠ FromECDSAPub P) := by
  constructor
  · intro resp k r sv tl P s2 w2 rec0 rec1 hsign hdec hpub h0 hne0 h1 hne1
    unfold Sign
    simp only [hsign, hdec, hpub, List.length_nil, gt_iff_lt, Nat.lt_irrefl, if_false,
      recoveryLoop_both_mismatch L digest _ _ _ rec0 rec1 h0 hne0 h1 hne1]
  · intro s1 w1 h
    unfold Sign at h
    split at h
    · simp only [Prod.mk.injEq, Result.error.injEq] at h
      exact absurd h.1 (Errorf_v_signing_ne _)
    · simp only at h
      split at h
      · simp [Errorf_w] at h
      · next rAndS rest hdec =>
        split at h
        · simp only [Prod.mk.injEq, Result.error.injEq] at h
          exact absurd h.1 (by decide)
        · split at h
          · simp [Errorf_w] at h
          · next pubKey s2 w2 hpub =>
            split at h
            · simp at h
            · simp at h
            · next r sv tl =>
              simp only [Prod.mk.injEq] at h
              obtain ⟨hres, hs2, hw⟩ := h
              subst hs2
              have hloop : recoveryLoop L digest (FromECDSAPub pubKey)
                  (bigBytes r ++ bigBytes sv) [0, 1] w2.trace =
                  (.error (.new "could not find correct recovery sig: <nil>"),
                    (recoveryLoop L digest (FromECDSAPub pubKey)
                      (bigBytes r ++ bigBytes sv) [0, 1] w2.trace).2) := by
                rw [← hres]
              obtain ⟨htr, hall⟩ := recoveryLoop_exhausted L digest _ _ _ _ _ hloop
              obtain ⟨rec0, h0, hne0⟩ := hall 0 (by simp)
              obtain ⟨rec1, h1, hne1⟩ := hall 1 (by simp)
              refine ⟨r, sv, pubKey, rec0, rec1, w2.trace, ?_, ?_, h0, hne0, h1, hne1⟩
              · rw [PublicKey_ok_signer L s s2 _ w2 pubKey hpub]
              · rw [← hw]
                simpa using htr

/-- Claim C4 as worded fails. The capability holds the demo key and answers
the sign request with `30 06 02 01 01 02 01 01`, which decodes to the pair
(1, 1), both in [1, curve order - 1]. For neither recovery id does `Ecrecover`
give the signer's public key: it rejects both 3-byte candidates. Yet `Sign`
does not return the recovery-exhaustion error: it returns "error attempting
recovery" for the v=0 candidate, the only candidate passed to `Ecrecover`. -/
theorem sign_recovery_exhaustion_counterexample :
    derUnmarshalInts onesDER = .ok ([1, 1], []) ∧
    (1 ≤ (1 : Int) ∧ (1 : Int) ≤ (secp256k1N : Int) - 1) ∧
    PublicKey (derLib demoTable) (NewSignerFromID (respKMS onesDER) testKeyID)
        (world0.step () (.sign testSignInput)) =
      (.ok demoKey, ⟨respKMS onesDER, testKeyID, some demoKey⟩, worldSignGet) ∧
    (derLib demoTable).Ecrecover testDigest (bigBytes 1 ++ bigBytes 1 ++ [0]) =
      .error (.new "invalid signature length") ∧
    (derLib demoTable).Ecrecover testDigest (bigBytes 1 ++ bigBytes 1 ++ [1]) =
      .error (.new "invalid signature length") ∧
    Sign (derLib demoTable) (NewSignerFromID (respKMS onesDER) testKeyID) testDigest world0 =
      (.error (.wrapError "error attempting recovery: invalid signature length"
          (.new "invalid signature length")),
        ⟨respKMS onesDER, testKeyID, some demoKey⟩,
        ⟨(), worldSignGet.trace ++ [Event.ecrecover testDigest [1, 1, 0]]⟩) ∧
    GoError.wrapError "error attempting recovery: invalid signature length"
        (.new "invalid signature length") ≠
      GoError.new "could not find correct recovery sig: <nil>" :=
  ⟨rfl, by decide, rfl, rfl, rfl, rfl, by decide⟩

/-! ## Short r or s -/

/-- Claim C10. Short r or s makes Sign fail: when the response decodes to
(r, s), both of magnitude below 2^256, and the minimal big-endian encoding of
r or of s is shorter than 32 bytes, the candidate `r.Bytes() ++ s.Bytes() ++
[0]` is shorter than 65 bytes; with an `Ecrecover` that rejects every signature
whose length is not 65, `Sign` returns an error and never a signature, and on
every run that reaches the recovery loop (the public key is available) that
error is "error attempting recovery" wrapping the error `Ecrecover` gave for
the v=0 candidate, that candidate being the only one passed to `Ecrecover`. -/
theorem sign_short_r_or_s_fails {σ : Type} (L : Lib) (hL : EcrecoverChecksLength L)
    (s : Signer σ) (digest : Bytes) (w : World σ)
    (resp : Bytes) (k : σ) (r sv : Int) (tl : List Int)
    (hsign : s.kms.SignWithContext (signInput s digest) w.kms = (.ok resp, k))
    (hdec : L.asn1UnmarshalInts resp = .ok (r :: sv :: tl, []))
    (hr : r.natAbs < 2 ^ 256) (hs : sv.natAbs < 2 ^ 256)
    (hshort : (bigBytes r).length < 32 ∨ (bigBytes sv).length < 32) :
    (bigBytes r ++ bigBytes sv ++ [0]).length < 65 ∧
    (∃ e, (Sign L s digest w).1 = .error e) ∧
    (∀ (P : ECDSAPublicKey) (s2 : Signer σ) (w2 : World σ),
      PublicKey L s (w.step k (.sign (signInput s digest))) = (.ok P, s2, w2) →
      ∃ e, L.Ecrecover digest (bigBytes r ++ bigBytes sv ++ [0]) = .error e ∧
        Sign L s digest w =
          (.error (Errorf_w "error attempting recovery" (some e)), s2,
            ⟨w2.kms, w2.trace ++
              [Event.ecrecover digest (bigBytes r ++ bigBytes sv ++ [0])]⟩)) := by
  have h256 : (2 : Nat) ^ 256 = 256 ^ 32 := by norm_num
  have hrb : (bigBytes r).length ≤ 32 := by
    rw [bigBytes, natBytes_length, byteLen_le_iff, ← h256]
    exact hr
  have hsb : (bigBytes sv).length ≤ 32 := by
    rw [bigBytes, natBytes_length, byteLen_le_iff, ← h256]
    exact hs
  have hlen : (bigBytes r ++ bigBytes sv ++ [0]).length < 65 := by
    simp only [List.length_append, List.length_singleton]
    omega
  obtain ⟨e, he⟩ := hL digest (bigBytes r ++ bigBytes sv ++ [0]) (Nat.ne_of_lt hlen)
  have hloop : ∀ (P : ECDSAPublicKey) (s2 : Signer σ) (w2 : World σ),
      PublicKey L s (w.step k (.sign (signInput s digest))) = (.ok P, s2, w2) →
      Sign L s digest w =
        (.error (Errorf_w "error attempting recovery" (some e)), s2,
          ⟨w2.kms, w2.trace ++
            [Event.ecrecover digest (bigBytes r ++ bigBytes sv ++ [0])]⟩) := by
    intro P s2 w2 hpub
    unfold Sign
    simp only [hsign, hdec, hpub, List.length_nil, gt_iff_lt, Nat.lt_irrefl, if_false,
      recoveryLoop, sigWithRecover, he]
  refine ⟨hlen, ?_, fun P s2 w2 hpub => ⟨e, he, hloop P s2 w2 hpub⟩⟩
  rcases hpk : PublicKey L s (w.step k (.sign (signInput s digest))) with ⟨res, s2, w2⟩
  cases res with
  | error err =>
    refine ⟨Errorf_w "error fetching public key" (some err), ?_⟩
    unfold Sign
    simp only [hsign, hdec, hpk, List.length_nil, gt_iff_lt, Nat.lt_irrefl, if_false]
  | ok P =>
    exact ⟨_, by rw [hloop P s2 w2 hpk]⟩

/-! ## Public key retrieval -/

/-- Claim C7. Public key retrieval returns the key the capability holds: for a
signer with a non-empty KeyID and no cached key, when the capability's response
decodes as a SubjectPublicKeyInfo with no trailing bytes whose bit string holds
a valid 65-byte uncompressed secp256k1 point `b`, `PublicKey` succeeds with a
key `P` (after one get-public-key request, caching `P`), and `FromECDSAPub P`
equals `b` byte for byte. -/
theorem publicKey_returns_capability_key {σ : Type} (L : Lib) (s : Signer σ)
    (w : World σ) (out : Bytes) (k : σ) (pub : subjectPublicKeyInfo) (b : Bytes)
    (hid : s.KeyID ≠ "") (hfresh : s.publicKey = none)
    (hget : s.kms.GetPublicKeyWithContext ⟨s.KeyID⟩ w.kms = (.ok out, k))
    (hdec : L.asn1UnmarshalSPKI out = .ok (pub, []))
    (hb : pub.PublicKey.Bytes = b) (hpoint : IsUncompressedPoint b) :
    ∃ P : ECDSAPublicKey,
      PublicKey L s w =
        (.ok P, ⟨s.kms, s.KeyID, some P⟩, w.step k (.getPublicKey ⟨s.KeyID⟩)) ∧
      FromECDSAPub P = b := by
  subst hb
  refine ⟨⟨bytesToNat ((pub.PublicKey.Bytes.drop 1).take 32),
    bytesToNat (pub.PublicKey.Bytes.drop 33)⟩, ?_, ?_⟩
  · rw [PublicKey_uncached L s w hfresh,
      fetchPublicKey_of_point L s w out k pub hid hget hdec hpoint]
  · exact FromECDSAPub_of_point _ hpoint.1 hpoint.2.1

/-- Claim C9. Public-key decode rejection: for a signer with a non-empty KeyID
and no cached key, when the capability's response decodes as a
SubjectPublicKeyInfo followed by one or more trailing bytes, `PublicKey`
returns no key but the public-key decode error ("error unmarshaling public
key", wrapped under "error getting key"), and the signer is returned
unchanged, its cached key still unpopulated. -/
theorem publicKey_rejects_trailing_bytes {σ : Type} (L : Lib) (s : Signer σ)
    (w : World σ) (out : Bytes) (k : σ) (pub : subjectPublicKeyInfo) (rest : Bytes)
    (hid : s.KeyID ≠ "") (hfresh : s.publicKey = none)
    (hget : s.kms.GetPublicKeyWithContext ⟨s.KeyID⟩ w.kms = (.ok out, k))
    (hdec : L.asn1UnmarshalSPKI out = .ok (pub, rest)) (hrest : rest ≠ []) :
    PublicKey L s w =
      (.error (Errorf_w "error getting key" (some (Errorf_w "error unmarshaling public key" none))),
        s, w.step k (.getPublicKey ⟨s.KeyID⟩)) ∧
    (Errorf_w "error getting key" (some (Errorf_w "error unmarshaling public key" none))).Error =
      "error getting key: error unmarshaling public key: %!w(<nil>)" ∧
    (PublicKey L s w).2.1.publicKey = none := by
  have hpos : rest.length > 0 := List.length_pos.mpr hrest
  have hfetch : fetchPublicKey L s w =
      (.error (Errorf_w "error unmarshaling public key" none),
        w.step k (.getPublicKey ⟨s.KeyID⟩)) := by
    unfold fetchPublicKey
    simp only [if_neg hid, hget, hdec, if_pos hpos]
  have hres : PublicKey L s w =
      (.error (Errorf_w "error getting key" (some (Errorf_w "error unmarshaling public key" none))),
        s, w.step k (.getPublicKey ⟨s.KeyID⟩)) := by
    rw [PublicKey_uncached L s w hfresh, hfetch]
  refine ⟨hres, by decide, ?_⟩
  rw [hres]
  exact hfresh

/-- Claim C8. Idempotent, memoized public key fetch: when the first
`PublicKey` call of a signer (nothing cached yet) succeeds with `P`, it made
exactly one get-public-key request and cached `P`; a second call returns the
identical `P` and leaves the signer and the world as they were, so it makes no
request and the two calls together make exactly one; and no later call of
`PublicKey` or `Sign`, in any world, changes the signer, so the cached key is
never overwritten. -/
theorem publicKey_memoized {σ : Type} (L : Lib) (s s1 : Signer σ)
    (w w1 : World σ) (P : ECDSAPublicKey)
    (hfresh : s.publicKey = none)
    (h : PublicKey L s w = (.ok P, s1, w1)) :
    s1.publicKey = some P ∧
    w1.trace = w.trace ++ [Event.getPublicKey ⟨s.KeyID⟩] ∧
    PublicKey L s1 w1 = (.ok P, s1, w1) ∧
    countGetPublicKey (PublicKey L s1 w1).2.2.trace = countGetPublicKey w.trace + 1 ∧
    (∀ (w2 : World σ), PublicKey L s1 w2 = (.ok P, s1, w2)) ∧
    (∀ (digest : Bytes) (w2 w3 : World σ) (res : Result Bytes) (s3 : Signer σ),
      Sign L s1 digest w2 = (res, s3, w3) → s3.publicKey = some P) := by
  have hs1 : s1.publicKey = some P := by
    rw [PublicKey_ok_signer L s s1 w w1 P h]
  have htr : w1.trace = w.trace ++ [Event.getPublicKey ⟨s.KeyID⟩] := by
    rw [PublicKey_uncached L s w hfresh] at h
    split at h
    · simp at h
    · next key w0 hfetch =>
      simp only [Prod.mk.injEq] at h
      rw [← h.2.2]
      exact fetchPublicKey_ok_trace L s w w0 key hfetch
  have h2 := PublicKey_cached L s1 w1 P hs1
  refine ⟨hs1, htr, h2, ?_, fun w2 => PublicKey_cached L s1 w2 P hs1, ?_⟩
  · rw [h2]
    simp [htr, countGetPublicKey, List.filter_append]
  · intro digest w2 w3 res s3 hsign
    rw [Sign_keeps_cached L s1 s3 digest w2 w3 res P hs1 hsign]
    exact hs1

/-! ## Where the code departs from the specification -/

/-- Claim C5 (not met by the code). `Sign` returns the signature-decode error
when decoding fails or leaves trailing bytes, but it never checks how many
integers the sequence holds: a response that decodes to an empty sequence or to
a single integer makes `Sign` panic on `rAndS[0]` or `rAndS[1]` once the public
key is available, and a response holding three integers is accepted, the third
being ignored. The last three parts evaluate `Sign` on the DER responses
`30 00`, `30 03 02 01 05` and a three-integer sequence. -/
theorem sign_sequence_length_unchecked :
    (∀ {σ : Type} (L : Lib) (s : Signer σ) (digest : Bytes) (w : World σ)
        (resp : Bytes) (k : σ) (err : GoError),
      s.kms.SignWithContext (signInput s digest) w.kms = (.ok resp, k) →
      L.asn1UnmarshalInts resp = .error err →
      Sign L s digest w =
        (.error (Errorf_w "error unmarshaling signature" (some err)), s,
          w.step k (.sign (signInput s digest)))) ∧
    (∀ {σ : Type} (L : Lib) (s : Signer σ) (digest : Bytes) (w : World σ)
        (resp : Bytes) (k : σ) (rAndS : List Int) (rest : Bytes),
      s.kms.SignWithContext (signInput s digest) w.kms = (.ok resp, k) →
      L.asn1UnmarshalInts resp = .ok (rAndS, rest) → rest ≠ [] →
      Sign L s digest w =
        (.error (Errorf_w "error unmarshaling signature" none), s,
          w.step k (.sign (signInput s digest)))) ∧
    (∀ {σ : Type} (L : Lib) (s s2 : Signer σ) (digest : Bytes) (w w2 : World σ)
        (resp : Bytes) (k : σ) (P : ECDSAPublicKey),
      s.kms.SignWithContext (signInput s digest) w.kms = (.ok resp, k) →
      L.asn1UnmarshalInts resp = .ok ([], []) →
      PublicKey L s (w.step k (.sign (signInput s digest))) = (.ok P, s2, w2) →
      Sign L s digest w =
        (.panic "runtime error: index out of range [0] with length 0", s2, w2)) ∧
    (∀ {σ : Type} (L : Lib) (s s2 : Signer σ) (digest : Bytes) (w w2 : World σ)
        (resp : Bytes) (k : σ) (P : ECDSAPublicKey) (r : Int),
      s.kms.SignWithContext (signInput s digest) w.kms = (.ok resp, k) →
      L.asn1UnmarshalInts resp = .ok ([r], []) →
      PublicKey L s (w.step k (.sign (signInput s digest))) = (.ok P, s2, w2) →
      Sign L s digest w =
        (.panic "runtime error: index out of range [1] with length 1", s2, w2)) ∧
    Sign (derLib demoTable) (NewSignerFromID (respKMS [0x30, 0x00]) testKeyID) testDigest
        world0 =
      (.panic "runtime error: index out of range [0] with length 0",
        ⟨respKMS [0x30, 0x00], testKeyID, some demoKey⟩, worldSignGet) ∧
    Sign (derLib demoTable) (NewSignerFromID (respKMS [0x30, 0x03, 0x02, 0x01, 0x05]) testKeyID)
        testDigest world0 =
      (.panic "runtime error: index out of range [1] with length 1",
        ⟨respKMS [0x30, 0x03, 0x02, 0x01, 0x05], testKeyID, some demoKey⟩, worldSignGet) ∧
    (derUnmarshalInts threeIntsDER = .ok ([(demoR : Int), (demoS : Int), 7], []) ∧
      Sign (derLib demoTable) (NewSignerFromID (respKMS threeIntsDER) testKeyID) testDigest
        world0 = (.ok demoSig, ⟨respKMS threeIntsDER, testKeyID, some demoKey⟩, demoWorld)) := by
  refine ⟨?_, ?_, ?_, ?_, rfl, rfl, rfl, rfl⟩
  · intro σ L s digest w resp k err hsign hdec
    unfold Sign
    simp only [hsign, hdec]
  · intro σ L s digest w resp k rAndS rest hsign hdec hrest
    have hpos : rest.length > 0 := List.length_pos.mpr hrest
    unfold Sign
    simp only [hsign, hdec, if_pos hpos]
  · intro σ L s s2 digest w w2 resp k P hsign hdec hpub
    unfold Sign
    simp only [hsign, hdec, hpub, List.length_nil, gt_iff_lt, Nat.lt_irrefl, if_false]
  · intro σ L s s2 digest w w2 resp k P r hsign hdec hpub
    unfold Sign
    simp only [hsign, hdec, hpub, List.length_nil, gt_iff_lt, Nat.lt_irrefl, if_false]

/-- Claim C6 (not met by `Sign`). `CreateKey` and `PublicKey` wrap the
capability's error: it is what `Unwrap` reaches from the returned error, under
a message naming the operation, and no value is returned. `Sign` formats the
capability's error with `%v`: the returned error carries only its text,
`Unwrap` gives nothing, and for the capability error "AccessDeniedException"
the cause is not in the chain of the error `Sign` returns. -/
theorem sign_capability_error_not_wrapped :
    (∀ {σ : Type} (kmsCli : KMSAPI σ) (w : World σ) (e : GoError) (k : σ),
      kmsCli.CreateKeyWithContext createKeyInput w.kms = (.error e, k) →
      CreateKey kmsCli w =
        (.error (Errorf_w "error creating key" (some e)),
          w.step k (.createKey createKeyInput)) ∧
      (Errorf_w "error creating key" (some e)).Unwrap = some e) ∧
    (∀ {σ : Type} (L : Lib) (s : Signer σ) (w : World σ) (e : GoError) (k : σ),
      s.KeyID ≠ "" → s.publicKey = none →
      s.kms.GetPublicKeyWithContext ⟨s.KeyID⟩ w.kms = (.error e, k) →
      PublicKey L s w =
        (.error (Errorf_w "error getting key"
          (some (Errorf_w "error getting public key" (some e)))), s,
          w.step k (.getPublicKey ⟨s.KeyID⟩)) ∧
      ((Errorf_w "error getting key"
          (some (Errorf_w "error getting public key" (some e)))).Unwrap.bind GoError.Unwrap) =
        some e) ∧
    (∀ {σ : Type} (L : Lib) (s : Signer σ) (digest : Bytes) (w : World σ)
        (e : GoError) (k : σ),
      s.kms.SignWithContext (signInput s digest) w.kms = (.error e, k) →
      Sign L s digest w =
        (.error (.new ("error signing: " ++ e.Error)), s,
          w.step k (.sign (signInput s digest))) ∧
      (GoError.new ("error signing: " ++ e.Error)).Unwrap = none) ∧
    (Sign (derLib demoTable)
        (NewSignerFromID (failingSignKMS (.remote "AccessDeniedException")) testKeyID)
        testDigest world0 =
      (.error (.new "error signing: AccessDeniedException"),
        NewSignerFromID (failingSignKMS (.remote "AccessDeniedException")) testKeyID,
        ⟨(), [Event.sign testSignInput]⟩) ∧
      GoError.remote "AccessDeniedException" ∉
        (GoError.new "error signing: AccessDeniedException").chain) := by
  refine ⟨?_, ?_, ?_, rfl, by decide⟩
  · intro σ kmsCli w e k h
    refine ⟨?_, rfl⟩
    unfold CreateKey
    simp only [h]
  · intro σ L s w e k hid hfresh h
    refine ⟨?_, rfl⟩
    rw [PublicKey_uncached L s w hfresh]
    unfold fetchPublicKey
    simp only [if_neg hid, h]
  · intro σ L s digest w e k h
    refine ⟨?_, rfl⟩
    have htext : "error signing" ++ ": " = "error signing: " := by decide
    unfold Sign
    simp only [h, Errorf_v, verbV]
    rw [htext]

/-! ## The claims at concrete inputs -/

/-- Witness of C1: a first `Sign` against the demo capability picks recovery
id 1, and recovery from the result gives the demo key's bytes. -/
theorem sign_ecrecover_round_trip_witness :
    Sign (derLib demoTable) (NewSignerFromID demoKMS testKeyID) testDigest world0 =
      (.ok demoSig, ⟨demoKMS, testKeyID, some demoKey⟩, demoWorld) ∧
    ∃ P : ECDSAPublicKey,
      (⟨demoKMS, testKeyID, some demoKey⟩ : Signer Unit) =
        ⟨(NewSignerFromID demoKMS testKeyID).kms, (NewSignerFromID demoKMS testKeyID).KeyID,
          some P⟩ ∧
      (∀ P0, (NewSignerFromID demoKMS testKeyID).publicKey = some P0 → P0 = P) ∧
      PublicKey (derLib demoTable) ⟨demoKMS, testKeyID, some demoKey⟩ demoWorld =
        (.ok P, ⟨demoKMS, testKeyID, some demoKey⟩, demoWorld) ∧
      (derLib demoTable).Ecrecover testDigest demoSig = .ok (FromECDSAPub P) :=
  ⟨rfl, sign_ecrecover_round_trip (derLib demoTable) (NewSignerFromID demoKMS testKeyID)
    ⟨demoKMS, testKeyID, some demoKey⟩ testDigest world0 demoWorld demoSig rfl⟩

/-- Witness of C3: a `Sign` by a signer that already holds the demo key. -/
theorem sign_length_65_witness :
    EcrecoverChecksLength (derLib demoTable) ∧
    Sign (derLib demoTable) ⟨demoKMS, testKeyID, some demoKey⟩ testDigest world0 =
      (.ok demoSig, ⟨demoKMS, testKeyID, some demoKey⟩,
        ⟨(), [Event.sign testSignInput, Event.ecrecover testDigest demoSig0,
          Event.ecrecover testDigest demoSig]⟩) ∧
    demoSig.length = 65 :=
  ⟨derLib_checks_length demoTable, rfl,
    sign_length_65 (derLib demoTable) (derLib_checks_length demoTable)
      ⟨demoKMS, testKeyID, some demoKey⟩ ⟨demoKMS, testKeyID, some demoKey⟩ testDigest world0 _
      demoSig rfl⟩

/-- Witness of C2: the demo signature, whose r and s both have 32 bytes. -/
theorem sign_signature_layout_witness :
    (1 ≤ (demoR : Int) ∧ (demoR : Int) ≤ (secp256k1N : Int) - 1) ∧
    (1 ≤ (demoS : Int) ∧ (demoS : Int) ≤ (secp256k1N : Int) - 1) ∧
    demoSig.take 32 = leftPad 32 (bigBytes (demoR : Int)) ∧
    (demoSig.drop 32).take 32 = leftPad 32 (bigBytes (demoS : Int)) ∧
    (demoSig.drop 64 = [0] ∨ demoSig.drop 64 = [1]) :=
  ⟨by decide, by decide,
    sign_signature_layout (derLib demoTable) (derLib_checks_length demoTable)
      (NewSignerFromID demoKMS testKeyID) ⟨demoKMS, testKeyID, some demoKey⟩ testDigest world0
      demoWorld demoSigDER () (demoR : Int) (demoS : Int) [] [] demoSig rfl rfl
      (by decide) (by decide) rfl⟩

/-- Witness of C4: the capability holds the key of `ethkms_test.go` but signs
with the demo key; both recoveries succeed, neither gives the signer's key, and
from the returned error both candidates are read back. -/
theorem sign_recovery_exhaustion_witness :
    Sign (derLib demoTable) (NewSignerFromID wrongKeyKMS testKeyID) testDigest world0 =
      (.error (.new "could not find correct recovery sig: <nil>"),
        ⟨wrongKeyKMS, testKeyID, some testKey⟩,
        ⟨(), worldSignGet.trace ++
          [Event.ecrecover testDigest (bigBytes (demoR : Int) ++ bigBytes (demoS : Int) ++ [0]),
           Event.ecrecover testDigest (bigBytes (demoR : Int) ++ bigBytes (demoS : Int) ++ [1])]⟩) ∧
    ∃ (r sv : Int) (P : ECDSAPublicKey) (rec0 rec1 : Bytes) (tr : List Event),
      (⟨wrongKeyKMS, testKeyID, some testKey⟩ : Signer Unit).publicKey = some P ∧
      demoWorld.trace = tr ++ [Event.ecrecover testDigest (bigBytes r ++ bigBytes sv ++ [0]),
        Event.ecrecover testDigest (bigBytes r ++ bigBytes sv ++ [1])] ∧
      (derLib demoTable).Ecrecover testDigest (bigBytes r ++ bigBytes sv ++ [0]) = .ok rec0 ∧
      rec0 ≠ FromECDSAPub P ∧
      (derLib demoTable).Ecrecover testDigest (bigBytes r ++ bigBytes sv ++ [1]) = .ok rec1 ∧
      rec1 ≠ FromECDSAPub P :=
  ⟨(sign_recovery_exhaustion (derLib demoTable) (NewSignerFromID wrongKeyKMS testKeyID)
      testDigest world0).1 demoSigDER () (demoR : Int) (demoS : Int) [] testKey
      ⟨wrongKeyKMS, testKeyID, some testKey⟩ worldSignGet demoOtherPub demoKeyPub
      rfl rfl rfl rfl (by decide) rfl (by decide),
   (sign_recovery_exhaustion (derLib demoTable) (NewSignerFromID wrongKeyKMS testKeyID)
      testDigest world0).2 ⟨wrongKeyKMS, testKeyID, some testKey⟩ demoWorld rfl⟩

/-- Witness of C10: a genuine signature by the demo key whose r has 31
significant bytes; the 64-byte candidate is rejected by `Ecrecover`. -/
theorem sign_short_r_or_s_fails_witness :
    (bigBytes (shortR : Int)).length = 31 ∧
    Sign (derLib demoTable) (NewSignerFromID (respKMS shortSigDER) testKeyID) testDigest world0 =
      (.error (.wrapError "error attempting recovery: invalid signature length"
          (.new "invalid signature length")),
        ⟨respKMS shortSigDER, testKeyID, some demoKey⟩,
        ⟨(), worldSignGet.trace ++ [Event.ecrecover testDigest
          (bigBytes (shortR : Int) ++ bigBytes (shortS : Int) ++ [0])]⟩) ∧
    ((bigBytes (shortR : Int) ++ bigBytes (shortS : Int) ++ [0]).length < 65 ∧
    (∃ e, (Sign (derLib demoTable) (NewSignerFromID (respKMS shortSigDER) testKeyID) testDigest
      world0).1 = .error e) ∧
    (∀ (P : ECDSAPublicKey) (s2 : Signer Unit) (w2 : World Unit),
      PublicKey (derLib demoTable) (NewSignerFromID (respKMS shortSigDER) testKeyID)
        (world0.step () (.sign (signInput (NewSignerFromID (respKMS shortSigDER) testKeyID)
          testDigest))) = (.ok P, s2, w2) →
      ∃ e, (derLib demoTable).Ecrecover testDigest
          (bigBytes (shortR : Int) ++ bigBytes (shortS : Int) ++ [0]) = .error e ∧
        Sign (derLib demoTable) (NewSignerFromID (respKMS shortSigDER) testKeyID) testDigest
            world0 =
          (.error (Errorf_w "error attempting recovery" (some e)), s2,
            ⟨w2.kms, w2.trace ++ [Event.ecrecover testDigest
              (bigBytes (shortR : Int) ++ bigBytes (shortS : Int) ++ [0])]⟩))) :=
  ⟨by decide, rfl,
    sign_short_r_or_s_fails (derLib demoTable) (derLib_checks_length demoTable)
      (NewSignerFromID (respKMS shortSigDER) testKeyID) testDigest world0 shortSigDER ()
      (shortR : Int) (shortS : Int) [] rfl rfl (by decide) (by decide) (Or.inl (by decide))⟩

/-- Witness of C7: the capability returns the SubjectPublicKeyInfo of the key
of `ethkms_test.go`; `PublicKey` returns the key whose encoding is `testKeyPub`,
as `TestGetPublicKey` asserts. -/
theorem publicKey_returns_capability_key_witness :
    IsUncompressedPoint testKeyPub ∧
    ∃ P : ECDSAPublicKey,
      PublicKey (derLib []) (NewSignerFromID (pubKMS (spkiHeader ++ testKeyPub)) testKeyID)
          world0 =
        (.ok P,
          ⟨(NewSignerFromID (pubKMS (spkiHeader ++ testKeyPub)) testKeyID).kms,
            (NewSignerFromID (pubKMS (spkiHeader ++ testKeyPub)) testKeyID).KeyID, some P⟩,
          world0.step () (.getPublicKey
            ⟨(NewSignerFromID (pubKMS (spkiHeader ++ testKeyPub)) testKeyID).KeyID⟩)) ∧
      FromECDSAPub P = testKeyPub :=
  ⟨by decide,
    publicKey_returns_capability_key (derLib [])
      (NewSignerFromID (pubKMS (spkiHeader ++ testKeyPub)) testKeyID) world0
      (spkiHeader ++ testKeyPub) () ⟨spkiAlgorithm, ⟨testKeyPub, 520⟩⟩ testKeyPub
      (by decide) rfl rfl rfl rfl (by decide)⟩

/-- Witness of C9: the SubjectPublicKeyInfo of the test key followed by two
trailing bytes. -/
theorem publicKey_rejects_trailing_bytes_witness :
    PublicKey (derLib [])
        (NewSignerFromID (pubKMS (spkiHeader ++ testKeyPub ++ [0xde, 0xad])) testKeyID) world0 =
      (.error (.wrapError "error getting key: error unmarshaling public key: %!w(<nil>)"
          (.new "error unmarshaling public key: %!w(<nil>)")),
        NewSignerFromID (pubKMS (spkiHeader ++ testKeyPub ++ [0xde, 0xad])) testKeyID,
        ⟨(), [Event.getPublicKey ⟨testKeyID⟩]⟩) ∧
    (Errorf_w "error getting key" (some (Errorf_w "error unmarshaling public key" none))).Error =
      "error getting key: error unmarshaling public key: %!w(<nil>)" ∧
    (PublicKey (derLib [])
      (NewSignerFromID (pubKMS (spkiHeader ++ testKeyPub ++ [0xde, 0xad])) testKeyID)
      world0).2.1.publicKey = none :=
  publicKey_rejects_trailing_bytes (derLib [])
    (NewSignerFromID (pubKMS (spkiHeader ++ testKeyPub ++ [0xde, 0xad])) testKeyID) world0
    (spkiHeader ++ testKeyPub ++ [0xde, 0xad]) () ⟨spkiAlgorithm, ⟨testKeyPub, 520⟩⟩
    [0xde, 0xad] (by decide) rfl rfl rfl (by decide)

/-- Witness of C8: two `PublicKey` calls against the capability holding the
test key: one get-public-key request in all. -/
theorem publicKey_memoized_witness :
    PublicKey (derLib []) (NewSignerFromID wrongKeyKMS testKeyID) world0 =
      (.ok testKey, ⟨wrongKeyKMS, testKeyID, some testKey⟩,
        ⟨(), [Event.getPublicKey ⟨testKeyID⟩]⟩) ∧
    ((⟨wrongKeyKMS, testKeyID, some testKey⟩ : Signer Unit).publicKey = some testKey ∧
    (⟨(), [Event.getPublicKey ⟨testKeyID⟩]⟩ : World Unit).trace =
      world0.trace ++ [Event.getPublicKey ⟨(NewSignerFromID wrongKeyKMS testKeyID).KeyID⟩] ∧
    PublicKey (derLib []) ⟨wrongKeyKMS, testKeyID, some testKey⟩
        ⟨(), [Event.getPublicKey ⟨testKeyID⟩]⟩ =
      (.ok testKey, ⟨wrongKeyKMS, testKeyID, some testKey⟩,
        ⟨(), [Event.getPublicKey ⟨testKeyID⟩]⟩) ∧
    countGetPublicKey (PublicKey (derLib []) ⟨wrongKeyKMS, testKeyID, some testKey⟩
      ⟨(), [Event.getPublicKey ⟨testKeyID⟩]⟩).2.2.trace =
      countGetPublicKey world0.trace + 1 ∧
    (∀ (w2 : World Unit), PublicKey (derLib []) ⟨wrongKeyKMS, testKeyID, some testKey⟩ w2 =
      (.ok testKey, ⟨wrongKeyKMS, testKeyID, some testKey⟩, w2)) ∧
    (∀ (digest : Bytes) (w2 w3 : World Unit) (res : Result Bytes) (s3 : Signer Unit),
      Sign (derLib []) ⟨wrongKeyKMS, testKeyID, some testKey⟩ digest w2 =
        (res, s3, w3) → s3.publicKey = some testKey)) :=
  ⟨rfl,
    publicKey_memoized (derLib []) (NewSignerFromID wrongKeyKMS testKeyID)
      ⟨wrongKeyKMS, testKeyID, some testKey⟩ world0 ⟨(), [Event.getPublicKey ⟨testKeyID⟩]⟩
      testKey rfl rfl⟩

end EthKms
